import Mathlib

/-!
# Consent-management core: shallow embedding and verification

This file embeds the core of the consent-management application:
the `user_provider_consent` table schema and its row-level-security
policies (from the SQL migration), the client handlers of
`Consent.tsx` and `Providers.tsx`, and the realtime merge applied to
the client mirror. Store operations that live in the database engine
(insert against the unique index, upsert, update-by-id) are modelled
from the spec's Consent Store contract together with the schema's
defaults, unique index and `updated_at` trigger.
-/

set_option autoImplicit false

namespace ElroiConsent

/-- A row of the `user_provider_consent` table. Timestamps are modelled
as naturals; `id`, `user_id` and `provider_id` are strings. Booleans
default to `false` in the schema; defaults are applied in the store
operations below. -/
structure ConsentRecord where
  id : String
  user_id : String
  provider_id : String
  lab_results : Bool
  medications : Bool
  fitness_data : Bool
  approved : Bool
  created_at : Nat
  updated_at : Nat
  deriving Repr, DecidableEq

/-- The four operations governed by the row-level-security policies. -/
inductive Op
  | select
  | insert
  | update
  | delete
  deriving Repr, DecidableEq

/-- The row-level-security check of the migration: each of the four
policies (`SELECT`, `UPDATE`, `INSERT`, `DELETE`) is granted `TO
authenticated` with condition `auth.uid() = user_id` (`USING` for
select/update/delete, `WITH CHECK` for insert; for insert the row is
the candidate row). An unauthenticated principal (`auth.uid()` absent)
matches no policy. -/
def rlsAllows (uid : Option String) (op : Op) (r : ConsentRecord) : Bool :=
  match uid, op with
  | none, _ => false
  | some u, Op.select => decide (u = r.user_id)
  | some u, Op.update => decide (u = r.user_id)
  | some u, Op.insert => decide (u = r.user_id)
  | some u, Op.delete => decide (u = r.user_id)

/-- A sample record owned by `"u2"`, used in concrete witnesses. -/
def recU2 : ConsentRecord :=
  ⟨"r2", "u2", "p2", false, false, false, false, 0, 0⟩

/-- C1: for distinct owners, a principal authenticated as `U1` is denied
select, update, delete and insert on any record (or insert candidate)
whose `user_id` is `U2`; and in general the policy check allows an
operation iff the principal's identifier equals the record's owner. -/
theorem c1_policy_allows_iff_owner (u1 u2 : String) (op : Op) (r : ConsentRecord)
    (hne : u1 ≠ u2) (hown : r.user_id = u2) :
    rlsAllows (some u1) op r = false ∧
    ∀ (v : String) (o : Op) (s : ConsentRecord),
      (rlsAllows (some v) o s = true ↔ v = s.user_id) := by
  constructor
  · cases op <;> simp [rlsAllows, hown, hne]
  · intro v o s
    cases o <;> simp [rlsAllows]

/-- Concrete instance of the C1 theorem at `u1 = "u1"`, `u2 = "u2"`. -/
theorem c1_policy_allows_iff_owner_witness :
    rlsAllows (some "u1") Op.select recU2 = false ∧
    ∀ (v : String) (o : Op) (s : ConsentRecord),
      (rlsAllows (some v) o s = true ↔ v = s.user_id) :=
  c1_policy_allows_iff_owner "u1" "u2" Op.select recU2 (by decide) rfl

/-! ## Client Sync Layer: realtime merge (`postgres_changes` handler of `Consent.tsx`) -/

/-- A remote change event delivered by the realtime channel: the
payload carries the new row on `INSERT` and `UPDATE`, and the old
row's `id` on `DELETE`. -/
inductive ChangeEvent
  | insertEvent (newRec : ConsentRecord)
  | updateEvent (newRec : ConsentRecord)
  | deleteEvent (oldId : String)
  deriving Repr, DecidableEq

/-- The `postgres_changes` handler of `Consent.tsx`: on `INSERT` the
new row is appended to the mirror (`[...prev, payload.new]`); on
`UPDATE` every mirror entry whose `id` equals the incoming row's `id`
is replaced by it (`prev.map`); on `DELETE` entries with the old row's
`id` are dropped (`prev.filter`). -/
def applyChange (mirror : List ConsentRecord) : ChangeEvent → List ConsentRecord
  | ChangeEvent.insertEvent r => mirror ++ [r]
  | ChangeEvent.updateEvent r => mirror.map fun c => if c.id = r.id then r else c
  | ChangeEvent.deleteEvent i => mirror.filter fun c => decide (c.id ≠ i)

/-- Predicate that is `true` exactly on INSERT events. -/
def isInsertEvent : ChangeEvent → Bool
  | ChangeEvent.insertEvent _ => true
  | ChangeEvent.updateEvent _ => false
  | ChangeEvent.deleteEvent _ => false

/-- A sample record owned by `"u1"`, used in concrete inputs. -/
def recU1 : ConsentRecord :=
  ⟨"r1", "u1", "p1", false, false, false, false, 0, 0⟩

/-- Variant of `recU1` with the same `id` but `approved` set, for merge inputs. -/
def recU1approved : ConsentRecord :=
  ⟨"r1", "u1", "p1", false, false, false, true, 0, 0⟩

/-- C3 counterexample: applying the same INSERT event twice to the
empty mirror yields a two-element mirror, not the one-element mirror
that a single application yields — the merge is not idempotent. -/
theorem c3_insert_twice_not_idempotent :
    applyChange (applyChange [] (ChangeEvent.insertEvent recU1))
        (ChangeEvent.insertEvent recU1)
      ≠ applyChange [] (ChangeEvent.insertEvent recU1) := by
  decide

/-- C3 amended: for UPDATE and DELETE events the merge is idempotent;
INSERT events are excluded (they append unconditionally). -/
theorem c3_merge_idempotent_update_delete (m : List ConsentRecord) (e : ChangeEvent)
    (h : isInsertEvent e = false) :
    applyChange (applyChange m e) e = applyChange m e := by
  cases e with
  | insertEvent r => simp [isInsertEvent] at h
  | updateEvent r =>
      simp only [applyChange, List.map_map]
      apply List.map_congr_left
      intro c _
      by_cases hc : c.id = r.id <;> simp [hc]
  | deleteEvent i =>
      simp only [applyChange, List.filter_filter]
      apply List.filter_congr
      intro c _
      by_cases hc : c.id = i <;> simp [hc]

/-- Concrete instance of the amended C3 theorem on an UPDATE event. -/
theorem c3_merge_idempotent_update_delete_witness :
    applyChange (applyChange [recU1] (ChangeEvent.updateEvent recU1approved))
        (ChangeEvent.updateEvent recU1approved)
      = applyChange [recU1] (ChangeEvent.updateEvent recU1approved) :=
  c3_merge_idempotent_update_delete [recU1] (ChangeEvent.updateEvent recU1approved) rfl

/-- The mirror's lookup-by-id observation: the first entry whose `id`
matches. -/
def lookupById (m : List ConsentRecord) (i : String) : Option ConsentRecord :=
  m.find? fun c => decide (c.id = i)

/-- C4 counterexample: with a record of id `"r1"` present, an INSERT
event carrying a row with the same id appends a duplicate instead of
replacing the present record with the incoming one. -/
theorem c4_insert_event_does_not_replace :
    applyChange [recU1] (ChangeEvent.insertEvent recU1approved)
        = [recU1, recU1approved]
      ∧ applyChange [recU1] (ChangeEvent.insertEvent recU1approved)
        ≠ [recU1approved] := by
  constructor
  · rfl
  · decide

theorem find?_pred_congr {p q : ConsentRecord → Bool} (m : List ConsentRecord)
    (h : ∀ a, p a = q a) : m.find? p = m.find? q :=
  congrArg (fun pr => m.find? pr) (funext h)

theorem lookupById_filter_self (m : List ConsentRecord) (i : String) :
    lookupById (m.filter fun c => decide (c.id ≠ i)) i = none := by
  simp only [lookupById, List.find?_filter, List.find?_eq_none]
  intro x _
  by_cases hx : x.id = i <;> simp [hx]

theorem lookupById_filter_other (m : List ConsentRecord) (i j : String) (h : j ≠ i) :
    lookupById (m.filter fun c => decide (c.id ≠ i)) j = lookupById m j := by
  simp only [lookupById, List.find?_filter]
  apply find?_pred_congr
  intro a
  by_cases ha : a.id = j
  · have hai : ¬ a.id = i := fun hi => h (ha.symm.trans hi)
    simp [ha, hai, h]
  · by_cases hai : a.id = i <;> simp [ha, hai, Ne.symm h]

theorem map_update_of_absent (m : List ConsentRecord) (r : ConsentRecord)
    (h : lookupById m r.id = none) :
    (m.map fun c => if c.id = r.id then r else c) = m := by
  have h' : ∀ x ∈ m, ¬ x.id = r.id := by
    simpa [lookupById, List.find?_eq_none] using h
  calc (m.map fun c => if c.id = r.id then r else c) = m.map id := by
        apply List.map_congr_left
        intro a ha
        simp [h' a ha]
    _ = m := List.map_id m

theorem lookupById_map_update_self (m : List ConsentRecord) (r c : ConsentRecord)
    (h : lookupById m r.id = some c) :
    lookupById (m.map fun x => if x.id = r.id then r else x) r.id = some r := by
  unfold lookupById at h ⊢
  rw [List.find?_map]
  have hpc : ((fun x : ConsentRecord => decide (x.id = r.id)) ∘ fun x => if x.id = r.id then r else x)
      = fun x : ConsentRecord => decide (x.id = r.id) := by
    funext x
    by_cases hx : x.id = r.id <;> simp [hx]
  rw [hpc, h]
  have hc : c.id = r.id := by simpa using List.find?_some h
  simp [hc]

theorem lookupById_map_update_other (m : List ConsentRecord) (r : ConsentRecord)
    (j : String) (h : j ≠ r.id) :
    lookupById (m.map fun x => if x.id = r.id then r else x) j = lookupById m j := by
  unfold lookupById
  rw [List.find?_map]
  have hpc : ((fun x : ConsentRecord => decide (x.id = j)) ∘ fun x => if x.id = r.id then r else x)
      = fun x : ConsentRecord => decide (x.id = j) := by
    funext x
    by_cases hx : x.id = r.id
    · have h1 : ¬ r.id = j := fun e => h e.symm
      have h2 : ¬ x.id = j := by rw [hx]; exact h1
      simp [hx, h1, h2]
    · simp [hx]
  rw [hpc]
  cases hfind : m.find? fun x : ConsentRecord => decide (x.id = j) with
  | none => rfl
  | some a =>
      have ha : a.id = j := by simpa using List.find?_some hfind
      have haf : ¬ a.id = r.id := by rw [ha]; exact h
      simp [haf]

theorem lookupById_append_single_self (m : List ConsentRecord) (r : ConsentRecord)
    (h : lookupById m r.id = none) :
    lookupById (m ++ [r]) r.id = some r := by
  unfold lookupById at h ⊢
  rw [List.find?_append, h]
  simp

theorem lookupById_append_single_other (m : List ConsentRecord) (r : ConsentRecord)
    (j : String) (h : j ≠ r.id) :
    lookupById (m ++ [r]) j = lookupById m j := by
  unfold lookupById
  rw [List.find?_append]
  have hr : ([r].find? fun c : ConsentRecord => decide (c.id = j)) = none := by
    have : ¬ r.id = j := fun e => h e.symm
    simp [this]
  rw [hr]
  cases m.find? fun c : ConsentRecord => decide (c.id = j) <;> rfl

/-- C4 amended: the merge operates by record id per event type — a
DELETE event removes the entry with the incoming id and leaves every
other id's entry unchanged; an UPDATE event replaces the entry with
the incoming id when present, leaves other ids unchanged, and is a
no-op when that id is absent (it does not insert); an INSERT event
appends the incoming record unconditionally (inserting it when the id
is absent, duplicating when present). -/
theorem c4_merge_is_by_id (m : List ConsentRecord) (r : ConsentRecord) (i j : String) :
    lookupById (applyChange m (ChangeEvent.deleteEvent i)) i = none
    ∧ (j ≠ i → lookupById (applyChange m (ChangeEvent.deleteEvent i)) j = lookupById m j)
    ∧ (lookupById m r.id = none → applyChange m (ChangeEvent.updateEvent r) = m)
    ∧ (∀ c, lookupById m r.id = some c →
        lookupById (applyChange m (ChangeEvent.updateEvent r)) r.id = some r)
    ∧ (j ≠ r.id →
        lookupById (applyChange m (ChangeEvent.updateEvent r)) j = lookupById m j)
    ∧ (lookupById m r.id = none →
        lookupById (applyChange m (ChangeEvent.insertEvent r)) r.id = some r)
    ∧ (j ≠ r.id →
        lookupById (applyChange m (ChangeEvent.insertEvent r)) j = lookupById m j)
    ∧ (applyChange m (ChangeEvent.insertEvent r)).length = m.length + 1 := by
  refine ⟨lookupById_filter_self m i,
          fun h => lookupById_filter_other m i j h,
          fun h => map_update_of_absent m r h,
          fun c h => lookupById_map_update_self m r c h,
          fun h => lookupById_map_update_other m r j h,
          fun h => lookupById_append_single_self m r h,
          fun h => lookupById_append_single_other m r j h,
          ?_⟩
  simp [applyChange]

/-- Concrete instance of the amended C4 theorem: delete removes id
`"r1"` and leaves other ids alone, an UPDATE event replaces the
present record of its id and is a no-op on the empty mirror, and an
INSERT event inserts into a mirror where the id is absent. -/
theorem c4_merge_is_by_id_witness :
    lookupById (applyChange [recU1] (ChangeEvent.deleteEvent "r1")) "r1" = none
    ∧ lookupById (applyChange [recU1] (ChangeEvent.deleteEvent "r1")) "rX"
        = lookupById [recU1] "rX"
    ∧ applyChange [] (ChangeEvent.updateEvent recU1) = []
    ∧ lookupById (applyChange [recU1] (ChangeEvent.updateEvent recU1approved))
        recU1approved.id = some recU1approved
    ∧ lookupById (applyChange [] (ChangeEvent.insertEvent recU1)) recU1.id = some recU1 :=
  ⟨(c4_merge_is_by_id [recU1] recU1approved "r1" "rX").1,
   (c4_merge_is_by_id [recU1] recU1approved "r1" "rX").2.1 (by decide),
   (c4_merge_is_by_id [] recU1 "r1" "rX").2.2.1 rfl,
   (c4_merge_is_by_id [recU1] recU1approved "r1" "rX").2.2.2.1 recU1 (by decide),
   (c4_merge_is_by_id [] recU1 "r1" "rX").2.2.2.2.2.1 rfl⟩

/-! ## Consent Store

The store itself is the database; the frontend sources carry only the
schema (`src/unnamed/part_000`) and the calls issued against it. The
operations below are modelled from the spec's Consent Store contract
(create / upsert / updateApproval / delete / listByOwner) together
with the schema's column defaults, unique index and `updated_at`
trigger. -/

/-- The spec's error taxonomy for store operations. -/
inductive StoreError
  | conflict
  | notFound
  | forbidden
  deriving Repr, DecidableEq

/-- The column values supplied by a client insert or upsert call;
`none` marks a column the client did not supply, which takes the
schema's `DEFAULT false` on insert and is left unchanged on merge. -/
structure InsertArgs where
  user_id : String
  provider_id : String
  lab_results : Option Bool
  medications : Option Bool
  fitness_data : Option Bool
  approved : Option Bool
  deriving Repr, DecidableEq

/-- First record of the store carrying the given owner/provider pair. -/
def findPair (s : List ConsentRecord) (u p : String) : Option ConsentRecord :=
  s.find? fun r => decide (r.user_id = u ∧ r.provider_id = p)

/-- The freshly inserted row: supplied columns, schema defaults
(`false`) for the rest, both timestamps set to the insert time. -/
def newRow (a : InsertArgs) (newId : String) (t : Nat) : ConsentRecord :=
  ⟨newId, a.user_id, a.provider_id, a.lab_results.getD false, a.medications.getD false,
   a.fitness_data.getD false, a.approved.getD false, t, t⟩

/-- Modelled from the spec: the Consent Store `create` operation (the
database insert, absent from the frontend sources). Guided by the
unique index `idx_user_provider_consent_user_provider`, it fails with
`ConflictError` when a record with the same `(user_id, provider_id)`
pair exists, and otherwise appends the new row. -/
def createRecord (s : List ConsentRecord) (a : InsertArgs) (newId : String) (t : Nat) :
    Except StoreError (List ConsentRecord) :=
  match findPair s a.user_id a.provider_id with
  | some _ => Except.error StoreError.conflict
  | none => Except.ok (s ++ [newRow a newId t])

/-- Merging supplied columns into an existing row; `updated_at` is
refreshed by the `update_updated_at_column` trigger. -/
def mergeInto (r : ConsentRecord) (a : InsertArgs) (t : Nat) : ConsentRecord :=
  { r with
    lab_results := a.lab_results.getD r.lab_results
    medications := a.medications.getD r.medications
    fitness_data := a.fitness_data.getD r.fitness_data
    approved := a.approved.getD r.approved
    updated_at := t }

/-- Modelled from the spec: the Consent Store `upsert` operation —
creates when the `(user_id, provider_id)` pair is absent, else merges
the supplied columns into the existing record. -/
def upsertRecord (s : List ConsentRecord) (a : InsertArgs) (newId : String) (t : Nat) :
    List ConsentRecord :=
  match findPair s a.user_id a.provider_id with
  | some _ =>
      s.map fun r =>
        if r.user_id = a.user_id ∧ r.provider_id = a.provider_id then mergeInto r a t else r
  | none => s ++ [newRow a newId t]

/-- Modelled from the spec: the Consent Store `updateApproval`
operation, as issued by the Approve button of `Consent.tsx`
(an update of `approved` alone, keyed by `id`); the trigger
refreshes `updated_at`; fails with `NotFoundError` when no record has
the given id. -/
def updateApproval (s : List ConsentRecord) (i : String) (b : Bool) (t : Nat) :
    Except StoreError (List ConsentRecord) :=
  match lookupById s i with
  | none => Except.error StoreError.notFound
  | some _ =>
      Except.ok (s.map fun r => if r.id = i then { r with approved := b, updated_at := t } else r)

/-- Delete by record id (the Deny button of `Consent.tsx`). -/
def deleteById (s : List ConsentRecord) (i : String) : List ConsentRecord :=
  s.filter fun r => decide (r.id ≠ i)

/-- Delete by owner/provider pair (`handleDeleteProvider` of
`Providers.tsx`). -/
def deleteByPair (s : List ConsentRecord) (u p : String) : List ConsentRecord :=
  s.filter fun r => decide (¬ (r.user_id = u ∧ r.provider_id = p))

/-- The records owned by a user (`select * ... eq('user_id', u)`). -/
def listByOwner (s : List ConsentRecord) (u : String) : List ConsentRecord :=
  s.filter fun r => decide (r.user_id = u)

/-- Two records carry the same `(user_id, provider_id)` pair. -/
def samePair (a b : ConsentRecord) : Prop :=
  a.user_id = b.user_id ∧ a.provider_id = b.provider_id

/-- The uniqueness invariant enforced by the unique index: no two
distinct positions of the store carry the same pair. -/
def pairsUnique (s : List ConsentRecord) : Prop :=
  s.Pairwise fun a b => ¬ samePair a b

/-- A store request issued by a client handler. -/
inductive StoreOp
  | createOp (a : InsertArgs) (newId : String) (t : Nat)
  | upsertOp (a : InsertArgs) (newId : String) (t : Nat)
  | approvalOp (i : String) (b : Bool) (t : Nat)
  | deleteOp (i : String)
  | deletePairOp (u p : String)
  deriving Repr, DecidableEq

/-- Executing one request against the store; a failed request leaves
the store unchanged. -/
def applyOp (s : List ConsentRecord) : StoreOp → List ConsentRecord
  | StoreOp.createOp a newId t =>
      match createRecord s a newId t with
      | Except.ok s2 => s2
      | Except.error _ => s
  | StoreOp.upsertOp a newId t => upsertRecord s a newId t
  | StoreOp.approvalOp i b t =>
      match updateApproval s i b t with
      | Except.ok s2 => s2
      | Except.error _ => s
  | StoreOp.deleteOp i => deleteById s i
  | StoreOp.deletePairOp u p => deleteByPair s u p

/-- Executing a sequence of requests from a starting store. -/
def runOps (s : List ConsentRecord) (ops : List StoreOp) : List ConsentRecord :=
  ops.foldl applyOp s

theorem pairsUnique_map_pres (s : List ConsentRecord) (f : ConsentRecord → ConsentRecord)
    (hf : ∀ r, (f r).user_id = r.user_id ∧ (f r).provider_id = r.provider_id)
    (hs : pairsUnique s) : pairsUnique (s.map f) := by
  unfold pairsUnique at hs ⊢
  rw [List.pairwise_map]
  refine hs.imp ?_
  intro a b hab hfab
  apply hab
  rcases hfab with ⟨h1, h2⟩
  constructor
  · rw [← (hf a).1, ← (hf b).1]; exact h1
  · rw [← (hf a).2, ← (hf b).2]; exact h2

theorem pairsUnique_filter (s : List ConsentRecord) (p : ConsentRecord → Bool)
    (hs : pairsUnique s) : pairsUnique (s.filter p) :=
  List.Pairwise.sublist (List.filter_sublist s) hs

theorem pairsUnique_applyOp (s : List ConsentRecord) (op : StoreOp)
    (hs : pairsUnique s) : pairsUnique (applyOp s op) := by
  cases op with
  | createOp a newId t =>
      cases hfp : findPair s a.user_id a.provider_id with
      | some r => simpa [applyOp, createRecord, hfp] using hs
      | none =>
          have hnone : ∀ x ∈ s, ¬ (x.user_id = a.user_id ∧ x.provider_id = a.provider_id) := by
            simpa [findPair, List.find?_eq_none] using hfp
          simp only [applyOp, createRecord, hfp]
          unfold pairsUnique
          rw [List.pairwise_append]
          refine ⟨hs, by simp, ?_⟩
          intro x hx y hy
          simp only [List.mem_singleton] at hy
          subst hy
          intro hsp
          exact hnone x hx ⟨hsp.1, hsp.2⟩
  | upsertOp a newId t =>
      cases hfp : findPair s a.user_id a.provider_id with
      | some r =>
          simp only [applyOp, upsertRecord, hfp]
          apply pairsUnique_map_pres s _ _ hs
          intro x
          by_cases hx : x.user_id = a.user_id ∧ x.provider_id = a.provider_id <;>
            simp [hx, mergeInto]
      | none =>
          have hnone : ∀ x ∈ s, ¬ (x.user_id = a.user_id ∧ x.provider_id = a.provider_id) := by
            simpa [findPair, List.find?_eq_none] using hfp
          simp only [applyOp, upsertRecord, hfp]
          unfold pairsUnique
          rw [List.pairwise_append]
          refine ⟨hs, by simp, ?_⟩
          intro x hx y hy
          simp only [List.mem_singleton] at hy
          subst hy
          intro hsp
          exact hnone x hx ⟨hsp.1, hsp.2⟩
  | approvalOp i b t =>
      cases hlk : lookupById s i with
      | none => simpa [applyOp, updateApproval, hlk] using hs
      | some r =>
          simp only [applyOp, updateApproval, hlk]
          apply pairsUnique_map_pres s _ _ hs
          intro x
          by_cases hx : x.id = i <;> simp [hx]
  | deleteOp i => exact pairsUnique_filter s _ hs
  | deletePairOp u p => exact pairsUnique_filter s _ hs

theorem pairsUnique_runOps_of (ops : List StoreOp) :
    ∀ s : List ConsentRecord, pairsUnique s → pairsUnique (runOps s ops) := by
  induction ops with
  | nil => intro s hs; exact hs
  | cons op ops ih =>
      intro s hs
      exact ih (applyOp s op) (pairsUnique_applyOp s op hs)

/-- C2: every store state reachable from the empty store keeps at most
one record per `(user_id, provider_id)` pair; a create on an existing
pair fails with `ConflictError` and leaves the store unchanged; an
upsert on an existing pair merges in place instead of failing — the
store keeps the same number of records. -/
theorem c2_pair_uniqueness (ops : List StoreOp) (s : List ConsentRecord)
    (a : InsertArgs) (newId : String) (t : Nat) (r : ConsentRecord)
    (hr : findPair s a.user_id a.provider_id = some r) :
    pairsUnique (runOps [] ops)
    ∧ createRecord s a newId t = Except.error StoreError.conflict
    ∧ applyOp s (StoreOp.createOp a newId t) = s
    ∧ (upsertRecord s a newId t).length = s.length := by
  refine ⟨pairsUnique_runOps_of ops [] (List.Pairwise.nil), ?_, ?_, ?_⟩
  · simp [createRecord, hr]
  · simp [applyOp, createRecord, hr]
  · simp [upsertRecord, hr]

/-- Concrete instance of the C2 theorem: the pair `("u1", "p1")` is
already present, so a second create conflicts and an upsert merges. -/
theorem c2_pair_uniqueness_witness :
    pairsUnique (runOps [] [])
    ∧ createRecord [recU1] ⟨"u1", "p1", none, none, none, none⟩ "r9" 5
        = Except.error StoreError.conflict
    ∧ applyOp [recU1] (StoreOp.createOp ⟨"u1", "p1", none, none, none, none⟩ "r9" 5) = [recU1]
    ∧ (upsertRecord [recU1] ⟨"u1", "p1", none, none, none, none⟩ "r9" 5).length
        = [recU1].length :=
  c2_pair_uniqueness [] [recU1] ⟨"u1", "p1", none, none, none, none⟩ "r9" 5 recU1 (by decide)

/-! ## Timestamps under the `update_updated_at_column` trigger

Every `UPDATE` of a row passes through the `BEFORE UPDATE` trigger,
which sets `NEW.updated_at = now()` whatever columns the statement
touched. A mutation is therefore modelled together with the clock
value `now()` returned at its execution. -/

/-- A mutation of one existing record: a flag edit (an upsert merge or
permissions update; unsupplied flags unchanged) or an approval
change. -/
inductive Mutation
  | setFlags (lr med fit : Option Bool)
  | setApproval (b : Bool)
  deriving Repr, DecidableEq

/-- Applying a mutation at clock value `t`: the targeted columns are
written and the trigger sets `updated_at := t` regardless of which
columns changed. -/
def applyMutation (r : ConsentRecord) : Mutation → Nat → ConsentRecord
  | Mutation.setFlags lr med fit, t =>
      { r with
        lab_results := lr.getD r.lab_results
        medications := med.getD r.medications
        fitness_data := fit.getD r.fitness_data
        updated_at := t }
  | Mutation.setApproval b, t => { r with approved := b, updated_at := t }

/-- Running a sequence of timed mutations over one record. -/
def runMutations (r : ConsentRecord) : List (Mutation × Nat) → ConsentRecord
  | [] => r
  | (m, t) :: rest => runMutations (applyMutation r m t) rest

/-- The clock does not run backwards: each mutation's `now()` value is
at least the previous one (and at least the record's current
`updated_at`). -/
def timesValid (prev : Nat) : List (Mutation × Nat) → Prop
  | [] => True
  | (_, t) :: rest => prev ≤ t ∧ timesValid t rest

/-- The clock value of the last mutation of the sequence (defaulting
to `d` for the empty sequence). -/
def lastTime (d : Nat) : List (Mutation × Nat) → Nat
  | [] => d
  | (_, t) :: rest => lastTime t rest

/-- C5: one mutation stamps `updated_at` with its own clock value, and
across any sequence of mutations under a non-decreasing clock the
record's `updated_at` never decreases and ends equal to the clock
value of the most recent mutation, whatever fields were changed. -/
theorem c5_updated_at_monotone (r : ConsentRecord) (ms : List (Mutation × Nat))
    (hv : timesValid r.updated_at ms) :
    (∀ (m : Mutation) (t : Nat), (applyMutation r m t).updated_at = t)
    ∧ r.updated_at ≤ (runMutations r ms).updated_at
    ∧ (runMutations r ms).updated_at = lastTime r.updated_at ms := by
  refine ⟨fun m t => by cases m <;> rfl, ?_⟩
  induction ms generalizing r with
  | nil => exact ⟨Nat.le_refl _, rfl⟩
  | cons mt rest ih =>
      obtain ⟨m, t⟩ := mt
      obtain ⟨hle, hrest⟩ := hv
      have hstamp : (applyMutation r m t).updated_at = t := by cases m <;> rfl
      have hih := ih (applyMutation r m t) (by rw [hstamp]; exact hrest)
      simp only [runMutations, lastTime]
      constructor
      · exact Nat.le_trans hle (by rw [hstamp] at hih; exact hih.1)
      · rw [hih.2, hstamp]

/-- Concrete instance of the C5 theorem: two mutations at increasing
clock values stamp `updated_at` with the later one. -/
theorem c5_updated_at_monotone_witness :
    (∀ (m : Mutation) (t : Nat), (applyMutation recU1 m t).updated_at = t)
    ∧ recU1.updated_at ≤
        (runMutations recU1
          [(Mutation.setFlags (some true) none none, 3),
           (Mutation.setApproval true, 7)]).updated_at
    ∧ (runMutations recU1
          [(Mutation.setFlags (some true) none none, 3),
           (Mutation.setApproval true, 7)]).updated_at
        = lastTime recU1.updated_at
            [(Mutation.setFlags (some true) none none, 3),
             (Mutation.setApproval true, 7)] :=
  c5_updated_at_monotone recU1
    [(Mutation.setFlags (some true) none none, 3), (Mutation.setApproval true, 7)]
    (by exact ⟨by decide, by decide, trivial⟩)

/-! ## Client handlers (`Providers.tsx`, `Consent.tsx`) -/

/-- The observable outcome of one client handler call: the store
requests it issued, the store after those requests, and the error it
surfaced to its caller (console logging is not surfacing). -/
structure HandlerRun where
  requests : List StoreOp
  newStore : List ConsentRecord
  surfaced : Option StoreError
  deriving Repr, DecidableEq

/-- The optimistic UI update of `handleAddProvider`: the new provider
is appended to the local providers list whether or not a user is
logged in. -/
def addProviderLocal (uiProviders : List String) (providerId : String) : List String :=
  uiProviders ++ [providerId]

/-- The `handleAddProvider` handler of `Providers.tsx`: with a logged-in user one
insert of `user_id`, `provider_id` and `approved: false` is issued;
with none, no request at all; a store error is only logged
(`console.error`), never surfaced. -/
def handleAddProvider (userId : Option String) (providerId newId : String)
    (store : List ConsentRecord) (t : Nat) : HandlerRun :=
  match userId with
  | none => ⟨[], store, none⟩
  | some u =>
      let op := StoreOp.createOp ⟨u, providerId, none, none, none, some false⟩ newId t
      ⟨[op], applyOp store op, none⟩

/-- The insert arguments built by `handleAccessRequest` of
`Consent.tsx`: the provider id is the hardcoded placeholder
`"generic-provider"`, the flags reflect the chosen data types, and
`approved` is set `true` at creation. -/
def accessRequestArgs (u : String) (dataTypes : List String) : InsertArgs :=
  ⟨u, "generic-provider",
   some (dataTypes.contains "Lab Results"),
   some (dataTypes.contains "Prescriptions"),
   some (dataTypes.contains "Fitness Data"),
   some true⟩

/-- The `handleAccessRequest` handler of `Consent.tsx`: with no logged-in user it
logs and returns without issuing a request; otherwise it issues one
insert of `accessRequestArgs`; a store error is only logged, never
surfaced. -/
def handleAccessRequest (userId : Option String) (dataTypes : List String)
    (newId : String) (store : List ConsentRecord) (t : Nat) : HandlerRun :=
  match userId with
  | none => ⟨[], store, none⟩
  | some u =>
      let op := StoreOp.createOp (accessRequestArgs u dataTypes) newId t
      ⟨[op], applyOp store op, none⟩

/-- The `handleUpdatePermissions` handler of `Providers.tsx`: with a logged-in
user one upsert carrying all three flags and `approved: true` is
issued; errors are only logged. -/
def handleUpdatePermissions (userId : Option String) (providerId : String)
    (lr med fit : Bool) (newId : String) (store : List ConsentRecord) (t : Nat) : HandlerRun :=
  match userId with
  | none => ⟨[], store, none⟩
  | some u =>
      let op := StoreOp.upsertOp ⟨u, providerId, some lr, some med, some fit, some true⟩ newId t
      ⟨[op], applyOp store op, none⟩

/-- The `handleDeleteProvider` handler of `Providers.tsx`: with a logged-in user
one delete keyed by `(user_id, provider_id)` is issued; errors are
only logged. -/
def handleDeleteProvider (userId : Option String) (providerId : String)
    (store : List ConsentRecord) : HandlerRun :=
  match userId with
  | none => ⟨[], store, none⟩
  | some u =>
      ⟨[StoreOp.deletePairOp u providerId],
       applyOp store (StoreOp.deletePairOp u providerId), none⟩

/-- The `fetchConsentRecords` effect of `Consent.tsx`: with no logged-in user it
returns before querying, leaving the mirror at its initial empty
value; otherwise the mirror is the owner's record set. -/
def fetchConsentRecords (userId : Option String) (store : List ConsentRecord) :
    List ConsentRecord :=
  match userId with
  | none => []
  | some u => listByOwner store u

/-- The realtime channel of `Consent.tsx` is opened only for a
logged-in user. -/
def subscriptionCreated (userId : Option String) : Bool :=
  userId.isSome

/-- The pending records rendered in the Access Requests panel; the
Approve and Deny buttons exist only for these. -/
def pendingConsents (mirror : List ConsentRecord) : List ConsentRecord :=
  mirror.filter fun c => decide (c.approved = false)

/-- C6 divergence: no handler ever surfaces a store error to its
caller — in particular, on the concrete failing input where user
`"u1"` re-adds provider `"p1"` while the `("u1", "p1")` record exists,
the insert fails with `ConflictError`, yet the handler reports no
error and the store is silently left as it was. -/
theorem c6_errors_never_surfaced (userId : Option String) (providerId newId : String)
    (dataTypes : List String) (store : List ConsentRecord) (t : Nat) (lr med fit : Bool) :
    (handleAddProvider userId providerId newId store t).surfaced = none
    ∧ (handleAccessRequest userId dataTypes newId store t).surfaced = none
    ∧ (handleUpdatePermissions userId providerId lr med fit newId store t).surfaced = none
    ∧ (handleDeleteProvider userId providerId store).surfaced = none
    ∧ createRecord [recU1] ⟨"u1", "p1", none, none, none, some false⟩ newId t
        = Except.error StoreError.conflict
    ∧ (handleAddProvider (some "u1") "p1" newId [recU1] t).surfaced = none
    ∧ (handleAddProvider (some "u1") "p1" newId [recU1] t).newStore = [recU1] := by
  have hfp1 : findPair [recU1] "u1" "p1" = some recU1 := by decide
  refine ⟨?_, ?_, ?_, ?_, ?_, rfl, ?_⟩
  · cases userId <;> rfl
  · cases userId <;> rfl
  · cases userId <;> rfl
  · cases userId <;> rfl
  · simp [createRecord, hfp1]
  · simp [handleAddProvider, applyOp, createRecord, hfp1]

/-- C8: with no principal identity, no handler issues a store request,
the store is untouched, nothing fails; the mirror stays empty (fetch
returns before querying and no realtime channel is opened), so the
Approve/Deny buttons — rendered per pending mirror record — cannot
issue requests either. -/
theorem c8_no_identity_no_requests (providerId newId : String)
    (dataTypes : List String) (store : List ConsentRecord) (t : Nat)
    (lr med fit : Bool) :
    (handleAddProvider none providerId newId store t).requests = []
    ∧ (handleAddProvider none providerId newId store t).newStore = store
    ∧ (handleAddProvider none providerId newId store t).surfaced = none
    ∧ (handleAccessRequest none dataTypes newId store t).requests = []
    ∧ (handleAccessRequest none dataTypes newId store t).newStore = store
    ∧ (handleAccessRequest none dataTypes newId store t).surfaced = none
    ∧ (handleUpdatePermissions none providerId lr med fit newId store t).requests = []
    ∧ (handleUpdatePermissions none providerId lr med fit newId store t).newStore = store
    ∧ (handleDeleteProvider none providerId store).requests = []
    ∧ (handleDeleteProvider none providerId store).newStore = store
    ∧ fetchConsentRecords none store = []
    ∧ subscriptionCreated none = false
    ∧ pendingConsents (fetchConsentRecords none store) = [] :=
  ⟨rfl, rfl, rfl, rfl, rfl, rfl, rfl, rfl, rfl, rfl, rfl, rfl, rfl⟩

/-- C7: an upsert supplying only `labResults: true` on an absent pair
creates a record with `lab_results: true` and the schema defaults
`medications: false`, `fitness_data: false`, `approved: false`; on a
present pair the upsert merges the supplied fields into the existing
record — the store keeps the same number of records and the pair now
holds the merged record. -/
theorem c7_upsert_creates_or_merges (u p newId : String) (t : Nat)
    (s : List ConsentRecord) (a : InsertArgs) (r : ConsentRecord)
    (hr : findPair s a.user_id a.provider_id = some r) :
    upsertRecord [] ⟨u, p, some true, none, none, none⟩ newId t
      = [⟨newId, u, p, true, false, false, false, t, t⟩]
    ∧ (upsertRecord s a newId t).length = s.length
    ∧ findPair (upsertRecord s a newId t) a.user_id a.provider_id
      = some (mergeInto r a t) := by
  refine ⟨rfl, ?_, ?_⟩
  · simp [upsertRecord, hr]
  · simp only [upsertRecord, hr]
    unfold findPair
    rw [List.find?_map]
    have hpc : ((fun x : ConsentRecord =>
          decide (x.user_id = a.user_id ∧ x.provider_id = a.provider_id)) ∘
        fun x => if x.user_id = a.user_id ∧ x.provider_id = a.provider_id
          then mergeInto x a t else x)
        = fun x : ConsentRecord =>
            decide (x.user_id = a.user_id ∧ x.provider_id = a.provider_id) := by
      funext x
      by_cases hx : x.user_id = a.user_id ∧ x.provider_id = a.provider_id
      · rw [Function.comp_apply, if_pos hx]
        simp [mergeInto]
      · rw [Function.comp_apply, if_neg hx]
    rw [hpc]
    have hr2 : s.find? (fun x : ConsentRecord =>
        decide (x.user_id = a.user_id ∧ x.provider_id = a.provider_id)) = some r := hr
    rw [hr2]
    have hrp : r.user_id = a.user_id ∧ r.provider_id = a.provider_id := by
      simpa using List.find?_some hr
    simp [hrp]

/-- Concrete instance of the C7 theorem: the pair `("u1", "p1")` is
present as `recU1`, so the upsert merges into it. -/
theorem c7_upsert_creates_or_merges_witness :
    upsertRecord [] ⟨"u1", "p1", some true, none, none, none⟩ "n1" 4
      = [⟨"n1", "u1", "p1", true, false, false, false, 4, 4⟩]
    ∧ (upsertRecord [recU1] ⟨"u1", "p1", some true, none, none, none⟩ "n1" 4).length
      = [recU1].length
    ∧ findPair (upsertRecord [recU1] ⟨"u1", "p1", some true, none, none, none⟩ "n1" 4)
        "u1" "p1"
      = some (mergeInto recU1 ⟨"u1", "p1", some true, none, none, none⟩ 4) :=
  c7_upsert_creates_or_merges "u1" "p1" "n1" 4 [recU1]
    ⟨"u1", "p1", some true, none, none, none⟩ recU1 (by decide)

/-- C9: creating `("u1", "p1")` with `approved: false` and arbitrary
flags, then approving by id, yields via `listByOwner "u1"` exactly one
record for the pair, now `approved: true`, with the three data flags
and `created_at` unchanged and `updated_at` restamped. -/
theorem c9_approve_preserves_flags (lr med fit : Bool) (t1 t2 : Nat) (newId : String) :
    createRecord [] ⟨"u1", "p1", some lr, some med, some fit, some false⟩ newId t1
      = Except.ok [⟨newId, "u1", "p1", lr, med, fit, false, t1, t1⟩]
    ∧ updateApproval [⟨newId, "u1", "p1", lr, med, fit, false, t1, t1⟩] newId true t2
      = Except.ok [⟨newId, "u1", "p1", lr, med, fit, true, t1, t2⟩]
    ∧ listByOwner [⟨newId, "u1", "p1", lr, med, fit, true, t1, t2⟩] "u1"
      = [⟨newId, "u1", "p1", lr, med, fit, true, t1, t2⟩] := by
  refine ⟨rfl, ?_, ?_⟩
  · simp [updateApproval, lookupById]
  · simp [listByOwner]

/-- C10: every access request carries the constant provider id
`"generic-provider"`; a second request by the same user, while the
record from the first still exists, hits the unique
`(user_id, provider_id)` index — its create fails with
`ConflictError` and the handler leaves the store as it was. -/
theorem c10_second_access_request_conflicts (u newId1 newId2 : String)
    (dt1 dt2 : List String) (t1 t2 : Nat) :
    (accessRequestArgs u dt1).provider_id = "generic-provider"
    ∧ (accessRequestArgs u dt2).provider_id = "generic-provider"
    ∧ createRecord (handleAccessRequest (some u) dt1 newId1 [] t1).newStore
        (accessRequestArgs u dt2) newId2 t2 = Except.error StoreError.conflict
    ∧ (handleAccessRequest (some u) dt2 newId2
        (handleAccessRequest (some u) dt1 newId1 [] t1).newStore t2).newStore
      = (handleAccessRequest (some u) dt1 newId1 [] t1).newStore := by
  have hs1 : (handleAccessRequest (some u) dt1 newId1 [] t1).newStore
      = [newRow (accessRequestArgs u dt1) newId1 t1] := by
    simp [handleAccessRequest, applyOp, createRecord, findPair]
  have hconf : createRecord [newRow (accessRequestArgs u dt1) newId1 t1]
      (accessRequestArgs u dt2) newId2 t2 = Except.error StoreError.conflict := by
    have hfp : findPair [newRow (accessRequestArgs u dt1) newId1 t1]
        (accessRequestArgs u dt2).user_id (accessRequestArgs u dt2).provider_id
        = some (newRow (accessRequestArgs u dt1) newId1 t1) := by
      simp [findPair, newRow, accessRequestArgs]
    simp [createRecord, hfp]
  refine ⟨rfl, rfl, ?_, ?_⟩
  · rw [hs1]
    exact hconf
  · rw [hs1]
    simp only [handleAccessRequest, applyOp, hconf]

end ElroiConsent
